import Mathlib

/-!
Shallow embedding of the pefcl transfer/ledger and cash business logic:
`TransactionService.handleInternalTransfer`, `handleExternalTransfer`,
`handleTransfer`, `handleGetHistory` (transaction.service.ts) and
`CashService.handleTakeCash`, `handleGiveCash` (cash.service.ts).

The persistence collaborators (AccountDB, TransactionDB, CashDB, the
sequelize transaction primitive and the framework-integration exports) are
not part of the sources; they are modelled from the specification's
description of the collaborator interfaces, while the service handlers are
translated line by line from the source.
-/

namespace Pefcl

/-- `AccountRole` from typings: roles a player can hold on a shared account. -/
inductive AccountRole
  | Owner
  | Admin
  | Contributor
deriving DecidableEq, Repr

/-- `TransactionType` from typings: the tag on a ledger row. -/
inductive TransactionType
  | Transfer
  | Incoming
  | Outgoing
deriving DecidableEq, Repr

/-- `TransferType` from typings: the discriminator in a transfer payload. -/
inductive TransferType
  | Internal
  | External
deriving DecidableEq, Repr

/-- Errors: the single generic not-found kind (`ServerError(GenericErrors.NotFound)`)
plus opaque persistence-layer failures that propagate unmodified. -/
inductive Err
  | NotFound
  | DBError (code : Nat)
deriving DecidableEq, Repr

/-- An account row: identifier, owning player, balance, role grants for sharing. -/
structure Account where
  id : Nat
  ownerIdentifier : String
  balance : Int
  sharedRoles : List (String × AccountRole)
deriving DecidableEq, Repr

/-- A ledger row as inserted by `transactionDB.create`: amount, message,
snapshots of the from/to accounts, and a type tag. -/
structure LedgerRow where
  amount : Int
  message : String
  fromAccount : Account
  toAccount : Account
  type : TransactionType
deriving DecidableEq, Repr

/-- The persistent state the transfer handlers touch: local accounts,
external (cross-ledger) accounts, and the append-only ledger. -/
structure DBState where
  accounts : List Account
  externalAccounts : List Account
  ledger : List LedgerRow
deriving DecidableEq, Repr

/-- The transfer request payload (`req.data`). -/
structure Transfer where
  type : TransferType
  fromAccountId : Nat
  toAccountId : Nat
  amount : Int
  message : String
deriving DecidableEq, Repr

/-- Modelled from the spec: Account store collaborator `getAccount(id)`
(lookup with no ownership check). -/
def getAccount (s : DBState) (id : Nat) : Option Account :=
  s.accounts.find? (fun a => a.id == id)

/-- Modelled from the spec: `getAuthorizedAccountById(id, identifier)` — the
account with this id directly owned by the caller. -/
def getAuthorizedAccountById (s : DBState) (id : Nat) (identifier : String) :
    Option Account :=
  s.accounts.find? (fun a => a.id == id && a.ownerIdentifier == identifier)

/-- Modelled from the spec: `getAuthorizedSharedAccountById(id, identifier, roles)` —
the shared account with this id on which the caller holds one of the roles. -/
def getAuthorizedSharedAccountById (s : DBState) (id : Nat) (identifier : String)
    (roles : List AccountRole) : Option Account :=
  s.accounts.find? (fun a =>
    a.id == id && a.sharedRoles.any (fun p => p.1 == identifier && roles.contains p.2))

/-- Modelled from the spec: External-account collaborator
`getAccountFromExternalAccount(id)` for cross-ledger destination resolution. -/
def getAccountFromExternalAccount (s : DBState) (id : Nat) : Option Account :=
  s.externalAccounts.find? (fun a => a.id == id)

/-- Modelled from the spec: `account.increment('balance', by)` on a local account. -/
def incrementBalance (s : DBState) (id : Nat) (amt : Int) : DBState :=
  { s with accounts := s.accounts.map (fun a =>
      if a.id == id then { a with balance := a.balance + amt } else a) }

/-- Modelled from the spec: `account.decrement('balance', by)` on a local account. -/
def decrementBalance (s : DBState) (id : Nat) (amt : Int) : DBState :=
  { s with accounts := s.accounts.map (fun a =>
      if a.id == id then { a with balance := a.balance - amt } else a) }

/-- Modelled from the spec: `increment` on an external-ledger account. -/
def incrementExternalBalance (s : DBState) (id : Nat) (amt : Int) : DBState :=
  { s with externalAccounts := s.externalAccounts.map (fun a =>
      if a.id == id then { a with balance := a.balance + amt } else a) }

/-- Modelled from the spec: Transaction store collaborator `create(record)` —
appends one row to the append-only ledger. -/
def createRow (s : DBState) (r : LedgerRow) : DBState :=
  { s with ledger := s.ledger ++ [r] }

/-- Failure schedule for the fallible persistence steps inside a transfer's
transactional block: `stepFail fails i` is the error the i-th step raises,
`none` when the step succeeds. -/
def stepFail (fails : List (Option Err)) (i : Nat) : Option Err :=
  fails.getD i none

/-- `const fromAccount = myAccount ?? sharedAccount` with the two authorized
lookups of `handleInternalTransfer`. -/
def resolveFromAccount (s : DBState) (fromAccountId : Nat) (identifier : String) :
    Option Account :=
  let myAccount := getAuthorizedAccountById s fromAccountId identifier
  let sharedAccount := getAuthorizedSharedAccountById s fromAccountId identifier
    [AccountRole.Admin, AccountRole.Owner]
  myAccount.orElse (fun _ => sharedAccount)

/-- `TransactionService.handleInternalTransfer`: resolve source (owned-or-shared)
and destination, fail with NotFound if either is missing, then — inside the
transactional block — increment the destination, decrement the source, insert
one `Transfer` ledger row; commit, or on any error roll back to the
transaction-start state and re-raise. The sequelize transaction primitive is
modelled from the spec: rollback restores all balance mutations and ledger
inserts performed in the block. -/
def handleInternalTransfer (fails : List (Option Err)) (identifier : String)
    (req : Transfer) (s : DBState) : DBState × Option Err :=
  let t := s
  let fromAccount := resolveFromAccount s req.fromAccountId identifier
  let toAccount := getAccount s req.toAccountId
  match toAccount, fromAccount with
  | some toA, some fromA =>
    match stepFail fails 0 with
    | some e => (t, some e)
    | none =>
      let s1 := incrementBalance s toA.id req.amount
      match stepFail fails 1 with
      | some e => (t, some e)
      | none =>
        let s2 := decrementBalance s1 fromA.id req.amount
        match stepFail fails 2 with
        | some e => (t, some e)
        | none =>
          (createRow s2
            { amount := req.amount, message := req.message,
              fromAccount := fromA, toAccount := toA,
              type := TransactionType.Transfer }, none)
  | _, _ => (t, some Err.NotFound)

/-- `TransactionService.handleExternalTransfer`: resolve source via `getAccount`
and destination via the external-account service, fail with NotFound if either
is missing, then — inside the transactional block — decrement the source,
increment the destination, and insert two ledger rows sharing
amount/message/snapshots, tagged `Outgoing` and `Incoming`; commit, or roll
back and re-raise. -/
def handleExternalTransfer (fails : List (Option Err)) (req : Transfer)
    (s : DBState) : DBState × Option Err :=
  let t := s
  let myAccount := getAccount s req.fromAccountId
  let toAccount := getAccountFromExternalAccount s req.toAccountId
  match toAccount, myAccount with
  | some toA, some myA =>
    match stepFail fails 0 with
    | some e => (t, some e)
    | none =>
      let s1 := decrementBalance s myA.id req.amount
      match stepFail fails 1 with
      | some e => (t, some e)
      | none =>
        let s2 := incrementExternalBalance s1 toA.id req.amount
        match stepFail fails 2 with
        | some e => (t, some e)
        | none =>
          let s3 := createRow s2
            { amount := req.amount, message := req.message,
              fromAccount := myA, toAccount := toA,
              type := TransactionType.Outgoing }
          match stepFail fails 3 with
          | some e => (t, some e)
          | none =>
            (createRow s3
              { amount := req.amount, message := req.message,
                fromAccount := myA, toAccount := toA,
                type := TransactionType.Incoming }, none)
  | _, _ => (t, some Err.NotFound)

/-- `TransactionService.handleTransfer`: dispatch on the `type` discriminator. -/
def handleTransfer (fails : List (Option Err)) (identifier : String)
    (req : Transfer) (s : DBState) : DBState × Option Err :=
  if req.type == TransferType.External then
    handleExternalTransfer fails req s
  else
    handleInternalTransfer fails identifier req s

/-- A call made on the framework-integration exports binding
(`exp.pefclDepositMoney` / `exp.pefclWithdrawMoney`), recorded by name. -/
inductive ExtCall
  | pefclDepositMoney (source : Nat) (amount : Int)
  | pefclWithdrawMoney (source : Nat) (amount : Int)
deriving DecidableEq, Repr

/-- A local cash row (`CashModel`): player identifier and amount. -/
structure CashRow where
  identifier : String
  amount : Int
deriving DecidableEq, Repr

/-- The state the cash service touches: local cash rows plus the log of
calls delegated to the framework-integration exports. -/
structure CashState where
  rows : List CashRow
  extCalls : List ExtCall
deriving DecidableEq, Repr

/-- Modelled from the spec: `cashDB.getCashByIdentifier(identifier)`. -/
def getCashByIdentifier (rows : List CashRow) (identifier : String) : Option CashRow :=
  rows.find? (fun c => c.identifier == identifier)

/-- Modelled from the spec: `cash.decrement(\x7b amount \x7d)` on the row of
this identifier — a plain read-then-write with no floor check. -/
def cashDecrement (rows : List CashRow) (identifier : String) (amount : Int) :
    List CashRow :=
  rows.map (fun c =>
    if c.identifier == identifier then { c with amount := c.amount - amount } else c)

/-- Modelled from the spec: `cash.increment(\x7b amount \x7d)` on the row of
this identifier. -/
def cashIncrement (rows : List CashRow) (identifier : String) (amount : Int) :
    List CashRow :=
  rows.map (fun c =>
    if c.identifier == identifier then { c with amount := c.amount + amount } else c)

/-- `CashService.handleTakeCash(source, amount)`: when
`useFrameworkIntegration` is set, call `exp.pefclDepositMoney(source, amount)`
and return null; otherwise decrement the local cash row (a no-op returning
null when the row is missing) and return it. -/
def handleTakeCash (useFrameworkIntegration : Bool) (identifier : String)
    (source : Nat) (amount : Int) (st : CashState) : Option CashRow × CashState :=
  if useFrameworkIntegration then
    (none, { st with extCalls := st.extCalls ++ [ExtCall.pefclDepositMoney source amount] })
  else
    match getCashByIdentifier st.rows identifier with
    | none => (none, st)
    | some cash =>
      (some { cash with amount := cash.amount - amount },
       { st with rows := cashDecrement st.rows identifier amount })

/-- `CashService.handleGiveCash(source, amount)`: when
`useFrameworkIntegration` is set, call `exp.pefclWithdrawMoney(source, amount)`
and return null; otherwise increment the local cash row (a no-op returning
null when the row is missing) and return it. -/
def handleGiveCash (useFrameworkIntegration : Bool) (identifier : String)
    (source : Nat) (amount : Int) (st : CashState) : Option CashRow × CashState :=
  if useFrameworkIntegration then
    (none, { st with extCalls := st.extCalls ++ [ExtCall.pefclWithdrawMoney source amount] })
  else
    match getCashByIdentifier st.rows identifier with
    | none => (none, st)
    | some cash =>
      (some { cash with amount := cash.amount + amount },
       { st with rows := cashIncrement st.rows identifier amount })

/-- A transaction as read back by `handleGetHistory`: amount, type tag and
creation timestamp (milliseconds). -/
structure HistoryTx where
  amount : Int
  type : TransactionType
  createdAt : Nat
deriving DecidableEq, Repr

/-- One bucket of the per-day breakdown. -/
structure DayEntry where
  income : Int
  expenses : Int
deriving DecidableEq, Repr

/-- The `GetTransactionHistoryResponse` shape: totals plus the per-day map
keyed by the transaction's local date string. -/
structure HistoryResponse where
  income : Int
  expenses : Int
  lastWeek : String → Option DayEntry

/-- The `expenses` reducer of `handleGetHistory`: subtract each `Outgoing`
amount from the accumulator. -/
def expensesStep (prev : Int) (curr : HistoryTx) : Int :=
  if curr.type == TransactionType.Outgoing then prev - curr.amount else prev

/-- The `income` reducer of `handleGetHistory`: add each `Incoming` amount to
the accumulator. -/
def incomeStep (prev : Int) (curr : HistoryTx) : Int :=
  if curr.type == TransactionType.Incoming then prev + curr.amount else prev

/-- The `lastWeek` reducer of `handleGetHistory`: read the current bucket for
the transaction's local date string (income/expenses defaulting to 0), add the
amount to income when `Incoming`, subtract it from expenses when `Outgoing`,
and write the bucket back under that date key. -/
def lastWeekStep (fmt : Nat → String) (prev : String → Option DayEntry)
    (curr : HistoryTx) : String → Option DayEntry :=
  let localeDate := fmt curr.createdAt
  let entry := (prev localeDate).getD ⟨0, 0⟩
  let newIncome :=
    if curr.type == TransactionType.Incoming then entry.income + curr.amount
    else entry.income
  let newExpenses :=
    if curr.type == TransactionType.Outgoing then entry.expenses - curr.amount
    else entry.expenses
  fun k => if k == localeDate then some ⟨newIncome, newExpenses⟩ else prev k

/-- `TransactionService.handleGetHistory` over the transactions fetched for
the trailing 7-day window: three left folds (reduces) over the list, starting
from 0, 0 and the empty record. `fmt` is the
`new Date(createdAt).toDateString()` formatting of the host runtime. -/
def handleGetHistory (fmt : Nat → String) (transactions : List HistoryTx) :
    HistoryResponse :=
  let expenses := transactions.foldl expensesStep 0
  let income := transactions.foldl incomeStep 0
  let lastWeek := transactions.foldl (lastWeekStep fmt) (fun _ => none)
  { income := income, expenses := expenses, lastWeek := lastWeek }

/-- Sum of the amounts of a list of transactions. -/
def sumAmounts (txs : List HistoryTx) : Int :=
  (txs.map (fun t => t.amount)).sum

/-- The transactions of a given type. -/
def txsOfType (ty : TransactionType) (txs : List HistoryTx) : List HistoryTx :=
  txs.filter (fun t => t.type == ty)

/-- The transactions whose local date string is the given day. -/
def txsOnDay (fmt : Nat → String) (d : String) (txs : List HistoryTx) :
    List HistoryTx :=
  txs.filter (fun t => fmt t.createdAt == d)

/-! ## Helper lemmas -/

theorem stepFail_some_mem {fails : List (Option Err)} {i : Nat} {e : Err}
    (h : stepFail fails i = some e) : some e ∈ fails := by
  induction fails generalizing i with
  | nil => simp [stepFail, List.getD] at h
  | cons x xs ih =>
    cases i with
    | zero =>
      have hx : x = some e := by simpa [stepFail, List.getD_cons_zero] using h
      exact hx ▸ List.mem_cons_self _ _
    | succ j =>
      have := ih (i := j) (by simpa [stepFail, List.getD_cons_succ] using h)
      exact List.mem_cons_of_mem _ this

theorem getAuthorizedAccountById_mem {s : DBState} {id : Nat} {identifier : String}
    {a : Account} (h : getAuthorizedAccountById s id identifier = some a) :
    a ∈ s.accounts ∧ a.id = id ∧ a.ownerIdentifier = identifier := by
  refine ⟨List.mem_of_find?_eq_some h, ?_⟩
  have hp := List.find?_some h
  simp only [Bool.and_eq_true, beq_iff_eq] at hp
  exact hp

theorem getAuthorizedSharedAccountById_mem {s : DBState} {id : Nat}
    {identifier : String} {roles : List AccountRole} {a : Account}
    (h : getAuthorizedSharedAccountById s id identifier roles = some a) :
    a ∈ s.accounts ∧ a.id = id := by
  refine ⟨List.mem_of_find?_eq_some h, ?_⟩
  have hp := List.find?_some h
  simp only [Bool.and_eq_true, beq_iff_eq] at hp
  exact hp.1

theorem resolveFromAccount_mem {s : DBState} {id : Nat} {identifier : String}
    {a : Account} (h : resolveFromAccount s id identifier = some a) :
    a ∈ s.accounts ∧ a.id = id := by
  unfold resolveFromAccount at h
  simp only [Option.orElse] at h
  cases hmy : getAuthorizedAccountById s id identifier with
  | some b =>
    rw [hmy] at h
    simp at h
    subst h
    exact ⟨(getAuthorizedAccountById_mem hmy).1, (getAuthorizedAccountById_mem hmy).2.1⟩
  | none =>
    rw [hmy] at h
    simp at h
    exact getAuthorizedSharedAccountById_mem h

theorem getAccount_mem {s : DBState} {id : Nat} {a : Account}
    (h : getAccount s id = some a) : a ∈ s.accounts ∧ a.id = id := by
  refine ⟨List.mem_of_find?_eq_some h, ?_⟩
  have hp := List.find?_some h
  simpa using hp

/-- `find?` by id over a unique-id list finds exactly the member with that id. -/
theorem find?_id_of_mem_nodup {l : List Account} {a : Account}
    (hnd : (l.map Account.id).Nodup) (hmem : a ∈ l) :
    l.find? (fun b => b.id == a.id) = some a := by
  induction l with
  | nil => simp at hmem
  | cons x xs ih =>
    simp only [List.map_cons, List.nodup_cons] at hnd
    rcases List.mem_cons.mp hmem with h | h
    · subst h
      simp [List.find?]
    · have hne : x.id ≠ a.id := by
        intro heq
        exact hnd.1 (heq ▸ List.mem_map_of_mem Account.id h)
      rw [List.find?]
      have : (x.id == a.id) = false := by simp [hne]
      rw [this]
      exact ih hnd.2 h

theorem getAccount_of_mem_nodup {s : DBState} {a : Account}
    (hnd : (s.accounts.map Account.id).Nodup) (hmem : a ∈ s.accounts) :
    getAccount s a.id = some a :=
  find?_id_of_mem_nodup hnd hmem

/-- `getAccount` after a local increment: the looked-up row is the old one with
its balance bumped when its id matches, unchanged otherwise. -/
theorem getAccount_incrementBalance (s : DBState) (i j : Nat) (amt : Int) :
    getAccount (incrementBalance s i amt) j =
      (getAccount s j).map (fun a =>
        if a.id == i then { a with balance := a.balance + amt } else a) := by
  unfold getAccount incrementBalance
  rw [List.find?_map]
  have hp : ((fun a : Account => a.id == j) ∘ (fun a : Account =>
      if a.id == i then { a with balance := a.balance + amt } else a)) =
      (fun a : Account => a.id == j) := by
    funext a
    by_cases h : a.id = i <;> simp [h]
  rw [hp]

theorem getAccount_decrementBalance (s : DBState) (i j : Nat) (amt : Int) :
    getAccount (decrementBalance s i amt) j =
      (getAccount s j).map (fun a =>
        if a.id == i then { a with balance := a.balance - amt } else a) := by
  unfold getAccount decrementBalance
  rw [List.find?_map]
  have hp : ((fun a : Account => a.id == j) ∘ (fun a : Account =>
      if a.id == i then { a with balance := a.balance - amt } else a)) =
      (fun a : Account => a.id == j) := by
    funext a
    by_cases h : a.id = i <;> simp [h]
  rw [hp]

theorem getAccount_incrementExternalBalance (s : DBState) (i j : Nat) (amt : Int) :
    getAccount (incrementExternalBalance s i amt) j = getAccount s j := rfl

theorem getAccount_createRow (s : DBState) (r : LedgerRow) (j : Nat) :
    getAccount (createRow s r) j = getAccount s j := rfl

theorem ledger_incrementBalance (s : DBState) (i : Nat) (amt : Int) :
    (incrementBalance s i amt).ledger = s.ledger := rfl

theorem ledger_decrementBalance (s : DBState) (i : Nat) (amt : Int) :
    (decrementBalance s i amt).ledger = s.ledger := rfl

theorem getCashByIdentifier_cashDecrement (rows : List CashRow) (identifier j : String)
    (amt : Int) :
    getCashByIdentifier (cashDecrement rows identifier amt) j =
      (getCashByIdentifier rows j).map (fun c =>
        if c.identifier == identifier then { c with amount := c.amount - amt } else c) := by
  unfold getCashByIdentifier cashDecrement
  rw [List.find?_map]
  have hp : ((fun c : CashRow => c.identifier == j) ∘ (fun c : CashRow =>
      if c.identifier == identifier then { c with amount := c.amount - amt } else c)) =
      (fun c : CashRow => c.identifier == j) := by
    funext c
    by_cases h : c.identifier = identifier <;> simp [h]
  rw [hp]

/-! ## Concrete fixtures used by counterexamples and witnesses -/

/-- A local account owned by player alice. -/
def accountA : Account := { id := 1, ownerIdentifier := "alice", balance := 500, sharedRoles := [] }

/-- A second local account owned by player bob. -/
def accountB : Account := { id := 2, ownerIdentifier := "bob", balance := 200, sharedRoles := [] }

/-- An external-ledger account. -/
def accountX : Account := { id := 7, ownerIdentifier := "xavier", balance := 50, sharedRoles := [] }

/-- A sample database state with two local accounts, one external account,
and an empty ledger. -/
def sampleState : DBState :=
  { accounts := [accountA, accountB], externalAccounts := [accountX], ledger := [] }

/-- An external transfer of 50 from account 1 to external account 7. -/
def extReq : Transfer :=
  { type := TransferType.External, fromAccountId := 1, toAccountId := 7,
    amount := 50, message := "rent" }

/-- An internal transfer of 100 from account 1 to account 2. -/
def intReq : Transfer :=
  { type := TransferType.Internal, fromAccountId := 1, toAccountId := 2,
    amount := 100, message := "gift" }

/-- An internal transfer of 100 from account 1 to itself. -/
def selfReq : Transfer :=
  { type := TransferType.Internal, fromAccountId := 1, toAccountId := 1,
    amount := 100, message := "loop" }

/-- A sample cash state with one row for alice holding 10. -/
def sampleCash : CashState := { rows := [{ identifier := "alice", amount := 10 }], extCalls := [] }

/-! ## Claims -/

/-- C1, counterexample: on a successful external transfer the two ledger rows
are created with the SAME fromAccount and toAccount snapshots, not reversed
ones — the Outgoing row's fromAccount is not the Incoming row's toAccount. -/
theorem C1_counterexample :
    ∃ o i, (handleExternalTransfer [] extReq sampleState).2 = none ∧
      (handleExternalTransfer [] extReq sampleState).1.ledger = [o, i] ∧
      o.type = TransactionType.Outgoing ∧ i.type = TransactionType.Incoming ∧
      ¬(o.fromAccount = i.toAccount ∧ o.toAccount = i.fromAccount) := by
  refine ⟨_, _, rfl, rfl, rfl, rfl, ?_⟩
  intro hc
  exact absurd (congrArg Account.id hc.1) (by decide)

/-- C1 (amended): for every external transfer that succeeds, with the source
resolved by `getAccount` and the destination by the external-account service,
exactly two ledger rows are appended, one `Outgoing` and one `Incoming`, with
identical amount and message, and with identical (shared, not reversed)
account snapshots: both rows carry the resolved initiator account as their
fromAccount snapshot and the resolved external account as their toAccount
snapshot. -/
theorem C1_external_two_rows (fails : List (Option Err)) (req : Transfer)
    (s : DBState) (myA toA : Account)
    (hmy : getAccount s req.fromAccountId = some myA)
    (hext : getAccountFromExternalAccount s req.toAccountId = some toA)
    (h : (handleExternalTransfer fails req s).2 = none) :
    ∃ o i, (handleExternalTransfer fails req s).1.ledger = s.ledger ++ [o, i] ∧
      o.type = TransactionType.Outgoing ∧ i.type = TransactionType.Incoming ∧
      o.amount = req.amount ∧ i.amount = req.amount ∧
      o.message = req.message ∧ i.message = req.message ∧
      o.fromAccount = myA ∧ i.fromAccount = myA ∧
      o.toAccount = toA ∧ i.toAccount = toA := by
  simp only [handleExternalTransfer, hext, hmy] at h ⊢
  rcases h0 : stepFail fails 0 with _ | e0
  · rcases h1 : stepFail fails 1 with _ | e1
    · rcases h2 : stepFail fails 2 with _ | e2
      · rcases h3 : stepFail fails 3 with _ | e3
        · refine ⟨⟨req.amount, req.message, myA, toA, TransactionType.Outgoing⟩,
            ⟨req.amount, req.message, myA, toA, TransactionType.Incoming⟩,
            ?_, rfl, rfl, rfl, rfl, rfl, rfl, rfl, rfl, rfl, rfl⟩
          simp [createRow, incrementExternalBalance, decrementBalance]
        · rw [h0, h1, h2, h3] at h
          exact Option.noConfusion h
      · rw [h0, h1, h2] at h
        exact Option.noConfusion h
    · rw [h0, h1] at h
      exact Option.noConfusion h
  · rw [h0] at h
    exact Option.noConfusion h

/-- C1 witness: the amended theorem at the sample external transfer, where the
initiator resolves to accountA and the external destination to accountX. -/
theorem C1_external_two_rows_witness :
    ∃ o i, (handleExternalTransfer [] extReq sampleState).1.ledger =
        sampleState.ledger ++ [o, i] ∧
      o.type = TransactionType.Outgoing ∧ i.type = TransactionType.Incoming ∧
      o.amount = extReq.amount ∧ i.amount = extReq.amount ∧
      o.message = extReq.message ∧ i.message = extReq.message ∧
      o.fromAccount = accountA ∧ i.fromAccount = accountA ∧
      o.toAccount = accountX ∧ i.toAccount = accountX :=
  C1_external_two_rows [] extReq sampleState accountA accountX
    (by decide) (by decide) rfl

/-- C2, counterexample: with the integration flag set, `handleTakeCash` makes
the export call named `pefclDepositMoney`, not the withdraw call the claim
names. -/
theorem C2_counterexample :
    (handleTakeCash true "alice" 1 50 sampleCash).2.extCalls =
      [ExtCall.pefclDepositMoney 1 50] ∧
    ExtCall.pefclDepositMoney 1 50 ≠ ExtCall.pefclWithdrawMoney 1 50 := by
  exact ⟨rfl, by intro hc; cases hc⟩

/-- C2 (amended): when the framework-integration flag is set, `handleTakeCash`
delegates to the external integration's `pefclDepositMoney` call and
`handleGiveCash` delegates to its `pefclWithdrawMoney` call; both return no
local cash row (null) and leave the local rows untouched. -/
theorem C2_integration_delegation (identifier : String) (source : Nat)
    (amount : Int) (st : CashState) :
    handleTakeCash true identifier source amount st =
      (none, { st with extCalls := st.extCalls ++ [ExtCall.pefclDepositMoney source amount] }) ∧
    handleGiveCash true identifier source amount st =
      (none, { st with extCalls := st.extCalls ++ [ExtCall.pefclWithdrawMoney source amount] }) :=
  ⟨rfl, rfl⟩

/-- C6: with the integration flag off, `handleTakeCash` decrements the local
cash row by exactly the amount with no floor check: whenever the amount
exceeds the row's balance, the call still succeeds and the stored balance
becomes negative. -/
theorem C6_no_floor_check (identifier : String) (source : Nat) (amount : Int)
    (st : CashState) (c : CashRow)
    (h : getCashByIdentifier st.rows identifier = some c)
    (hlt : c.amount < amount) :
    (handleTakeCash false identifier source amount st).1 =
      some { c with amount := c.amount - amount } ∧
    getCashByIdentifier (handleTakeCash false identifier source amount st).2.rows
      identifier = some { c with amount := c.amount - amount } ∧
    c.amount - amount < 0 := by
  have hid : c.identifier = identifier := by
    have := List.find?_some h
    simpa [getCashByIdentifier] using this
  refine ⟨?_, ?_, by omega⟩
  · simp [handleTakeCash, h]
  · simp only [handleTakeCash, h, Bool.false_eq_true, if_false]
    rw [getCashByIdentifier_cashDecrement]
    rw [h]
    simp [hid]

/-- C6 witness: taking 50 from alice's row of 10 leaves a stored balance of -40. -/
theorem C6_no_floor_check_witness :
    getCashByIdentifier sampleCash.rows "alice" = some { identifier := "alice", amount := 10 } ∧
    (10 : Int) < 50 ∧
    (handleTakeCash false "alice" 1 50 sampleCash).1 =
      some { identifier := "alice", amount := 10 - 50 } ∧
    getCashByIdentifier (handleTakeCash false "alice" 1 50 sampleCash).2.rows "alice" =
      some { identifier := "alice", amount := 10 - 50 } ∧
    (10 : Int) - 50 < 0 := by
  have h : getCashByIdentifier sampleCash.rows "alice" =
      some { identifier := "alice", amount := 10 } := by decide
  have := C6_no_floor_check "alice" 1 50 sampleCash { identifier := "alice", amount := 10 }
    h (by decide)
  exact ⟨h, by decide, this.1, this.2.1, this.2.2⟩

/-- C9: with the integration flag off and no local cash row for the caller,
`handleTakeCash` and `handleGiveCash` return null without raising an error and
without mutating any state. -/
theorem C9_no_row_noop (identifier : String) (source : Nat) (amount : Int)
    (st : CashState) (h : getCashByIdentifier st.rows identifier = none) :
    handleTakeCash false identifier source amount st = (none, st) ∧
    handleGiveCash false identifier source amount st = (none, st) := by
  constructor <;> simp [handleTakeCash, handleGiveCash, h]

/-- C9 witness: the theorem at a caller with no cash row. -/
theorem C9_no_row_noop_witness :
    getCashByIdentifier sampleCash.rows "carol" = none ∧
    handleTakeCash false "carol" 1 5 sampleCash = (none, sampleCash) ∧
    handleGiveCash false "carol" 1 5 sampleCash = (none, sampleCash) := by
  have h : getCashByIdentifier sampleCash.rows "carol" = none := by decide
  exact ⟨h, (C9_no_row_noop "carol" 1 5 sampleCash h).1,
    (C9_no_row_noop "carol" 1 5 sampleCash h).2⟩

/-- C3, counterexample: an internal transfer from an account to itself (the
caller owns it, so both lookups resolve to the same row) succeeds, but the
balance nets to zero instead of dropping by the amount, so the claimed
`sourceBalanceAfter = sourceBalanceBefore - amount` fails. -/
theorem C3_counterexample :
    (handleInternalTransfer [] "alice" selfReq sampleState).2 = none ∧
    getAccount sampleState selfReq.fromAccountId = some accountA ∧
    accountA.balance = 500 ∧ selfReq.amount = 100 ∧
    getAccount (handleInternalTransfer [] "alice" selfReq sampleState).1
      selfReq.fromAccountId = some accountA ∧
    getAccount (handleInternalTransfer [] "alice" selfReq sampleState).1
      selfReq.fromAccountId ≠
      some { accountA with balance := accountA.balance - selfReq.amount } := by
  refine ⟨rfl, by decide, rfl, rfl, by decide, by decide⟩

/-- C3 (amended): for every internal transfer that succeeds and whose resolved
source and destination are distinct accounts, the source balance drops by the
amount, the destination balance rises by it, and exactly one `Transfer` ledger
row referencing snapshots of both accounts is appended. -/
theorem C3_internal_transfer (fails : List (Option Err)) (identifier : String)
    (req : Transfer) (s : DBState) (fromA toA : Account)
    (hnd : (s.accounts.map Account.id).Nodup)
    (hfrom : resolveFromAccount s req.fromAccountId identifier = some fromA)
    (hto : getAccount s req.toAccountId = some toA)
    (hne : fromA.id ≠ toA.id)
    (hok : (handleInternalTransfer fails identifier req s).2 = none) :
    getAccount (handleInternalTransfer fails identifier req s).1 fromA.id =
      some { fromA with balance := fromA.balance - req.amount } ∧
    getAccount (handleInternalTransfer fails identifier req s).1 toA.id =
      some { toA with balance := toA.balance + req.amount } ∧
    (handleInternalTransfer fails identifier req s).1.ledger =
      s.ledger ++ [⟨req.amount, req.message, fromA, toA, TransactionType.Transfer⟩] := by
  have hfromAcc : getAccount s fromA.id = some fromA :=
    getAccount_of_mem_nodup hnd (resolveFromAccount_mem hfrom).1
  have htoAcc : getAccount s toA.id = some toA := by
    have hm := getAccount_mem hto
    have := getAccount_of_mem_nodup hnd hm.1
    exact this
  simp only [handleInternalTransfer, hfrom, hto] at hok ⊢
  rcases h0 : stepFail fails 0 with _ | e0
  · rcases h1 : stepFail fails 1 with _ | e1
    · rcases h2 : stepFail fails 2 with _ | e2
      · refine ⟨?_, ?_, ?_⟩
        · rw [getAccount_createRow, getAccount_decrementBalance,
            getAccount_incrementBalance, hfromAcc]
          simp [hne]
        · rw [getAccount_createRow, getAccount_decrementBalance,
            getAccount_incrementBalance, htoAcc]
          simp [Ne.symm hne]
        · simp [createRow, decrementBalance, incrementBalance]
      · rw [h0, h1, h2] at hok
        exact Option.noConfusion hok
    · rw [h0, h1] at hok
      exact Option.noConfusion hok
  · rw [h0] at hok
    exact Option.noConfusion hok

/-- C3 witness: the amended theorem at the sample transfer of 100 from
account 1 (balance 500) to account 2 (balance 200). -/
theorem C3_internal_transfer_witness :
    getAccount (handleInternalTransfer [] "alice" intReq sampleState).1 accountA.id =
      some { accountA with balance := accountA.balance - intReq.amount } ∧
    getAccount (handleInternalTransfer [] "alice" intReq sampleState).1 accountB.id =
      some { accountB with balance := accountB.balance + intReq.amount } ∧
    (handleInternalTransfer [] "alice" intReq sampleState).1.ledger =
      sampleState.ledger ++
        [⟨intReq.amount, intReq.message, accountA, accountB, TransactionType.Transfer⟩] :=
  C3_internal_transfer [] "alice" intReq sampleState accountA accountB
    (by decide) (by decide) (by decide) (by decide) rfl

/-- C4: whenever the source or destination account of a transfer (internal or
external) cannot be resolved, `handleTransfer` returns the state unchanged (no
balance mutation, no ledger row) together with the not-found error. -/
theorem C4_not_found (fails : List (Option Err)) (identifier : String)
    (req : Transfer) (s : DBState)
    (h : (req.type ≠ TransferType.External ∧
            (getAccount s req.toAccountId = none ∨
             resolveFromAccount s req.fromAccountId identifier = none)) ∨
         (req.type = TransferType.External ∧
            (getAccountFromExternalAccount s req.toAccountId = none ∨
             getAccount s req.fromAccountId = none))) :
    handleTransfer fails identifier req s = (s, some Err.NotFound) := by
  rcases h with ⟨hty, hmiss⟩ | ⟨hty, hmiss⟩
  · have hb : (req.type == TransferType.External) = false := by
      simpa using hty
    rcases hmiss with hm | hm
    · rcases hf : resolveFromAccount s req.fromAccountId identifier with _ | fromA <;>
        simp [handleTransfer, hb, handleInternalTransfer, hm, hf]
    · rcases ht : getAccount s req.toAccountId with _ | toA <;>
        simp [handleTransfer, hb, handleInternalTransfer, hm, ht]
  · have hb : (req.type == TransferType.External) = true := by
      simpa using hty
    rcases hmiss with hm | hm
    · rcases hf : getAccount s req.fromAccountId with _ | myA <;>
        simp [handleTransfer, hb, handleExternalTransfer, hm, hf]
    · rcases ht : getAccountFromExternalAccount s req.toAccountId with _ | toA <;>
        simp [handleTransfer, hb, handleExternalTransfer, hm, ht]

/-- C4 witness: an internal transfer to a nonexistent destination account. -/
theorem C4_not_found_witness :
    getAccount sampleState 99 = none ∧
    handleTransfer [] "alice"
      { type := TransferType.Internal, fromAccountId := 1, toAccountId := 99,
        amount := 5, message := "nope" } sampleState =
      (sampleState, some Err.NotFound) :=
  ⟨by decide, C4_not_found [] "alice" _ sampleState
    (Or.inl ⟨by decide, Or.inl (by decide)⟩)⟩

theorem internalTransfer_err_rollback (fails : List (Option Err))
    (identifier : String) (req : Transfer) (s : DBState) (e : Err)
    (h : (handleInternalTransfer fails identifier req s).2 = some e) :
    (handleInternalTransfer fails identifier req s).1 = s ∧
      (e = Err.NotFound ∨ some e ∈ fails) := by
  rcases hfrom : resolveFromAccount s req.fromAccountId identifier with _ | fromA <;>
    rcases hto : getAccount s req.toAccountId with _ | toA <;>
    simp only [handleInternalTransfer, hfrom, hto] at h ⊢ <;>
    try exact ⟨trivial, Or.inl (Option.some.inj h).symm⟩
  rcases h0 : stepFail fails 0 with _ | e0
  · rcases h1 : stepFail fails 1 with _ | e1
    · rcases h2 : stepFail fails 2 with _ | e2
      · rw [h0, h1, h2] at h
        exact Option.noConfusion h
      · rw [h0, h1, h2] at h
        exact ⟨rfl, Or.inr (stepFail_some_mem (h2.trans (congrArg some (Option.some.inj h))))⟩
    · rw [h0, h1] at h
      exact ⟨rfl, Or.inr (stepFail_some_mem (h1.trans (congrArg some (Option.some.inj h))))⟩
  · rw [h0] at h
    exact ⟨rfl, Or.inr (stepFail_some_mem (h0.trans (congrArg some (Option.some.inj h))))⟩

theorem externalTransfer_err_rollback (fails : List (Option Err))
    (req : Transfer) (s : DBState) (e : Err)
    (h : (handleExternalTransfer fails req s).2 = some e) :
    (handleExternalTransfer fails req s).1 = s ∧
      (e = Err.NotFound ∨ some e ∈ fails) := by
  rcases hto : getAccountFromExternalAccount s req.toAccountId with _ | toA <;>
    rcases hmy : getAccount s req.fromAccountId with _ | myA <;>
    simp only [handleExternalTransfer, hto, hmy] at h ⊢ <;>
    try exact ⟨trivial, Or.inl (Option.some.inj h).symm⟩
  rcases h0 : stepFail fails 0 with _ | e0
  · rcases h1 : stepFail fails 1 with _ | e1
    · rcases h2 : stepFail fails 2 with _ | e2
      · rcases h3 : stepFail fails 3 with _ | e3
        · rw [h0, h1, h2, h3] at h
          exact Option.noConfusion h
        · rw [h0, h1, h2, h3] at h
          exact ⟨rfl, Or.inr (stepFail_some_mem (h3.trans (congrArg some (Option.some.inj h))))⟩
      · rw [h0, h1, h2] at h
        exact ⟨rfl, Or.inr (stepFail_some_mem (h2.trans (congrArg some (Option.some.inj h))))⟩
    · rw [h0, h1] at h
      exact ⟨rfl, Or.inr (stepFail_some_mem (h1.trans (congrArg some (Option.some.inj h))))⟩
  · rw [h0] at h
    exact ⟨rfl, Or.inr (stepFail_some_mem (h0.trans (congrArg some (Option.some.inj h))))⟩

/-- C5: whenever any step inside a transfer's transactional block fails, the
whole transfer leaves the database state exactly as it was before the call
(all balance mutations and ledger inserts rolled back) and the raised error is
re-raised to the caller unchanged — it is the not-found error or one of the
persistence-step failures, never a made-up one. -/
theorem C5_rollback_reraise (fails : List (Option Err)) (identifier : String)
    (req : Transfer) (s : DBState) (e : Err)
    (h : (handleTransfer fails identifier req s).2 = some e) :
    (handleTransfer fails identifier req s).1 = s ∧
      (e = Err.NotFound ∨ some e ∈ fails) := by
  by_cases hty : (req.type == TransferType.External) = true
  · simp only [handleTransfer, hty, if_true] at h ⊢
    exact externalTransfer_err_rollback fails req s e h
  · simp only [handleTransfer, hty, if_false] at h ⊢
    exact internalTransfer_err_rollback fails identifier req s e h

/-- C5 witness: a failure injected at the ledger-insert step, after both
balance mutations, still leaves the sample state unchanged and re-raises that
same error. -/
theorem C5_rollback_reraise_witness :
    (handleTransfer [none, none, some (Err.DBError 7)] "alice" intReq sampleState).2 =
      some (Err.DBError 7) ∧
    (handleTransfer [none, none, some (Err.DBError 7)] "alice" intReq sampleState).1 =
      sampleState ∧
    (Err.DBError 7 = Err.NotFound ∨
      some (Err.DBError 7) ∈ ([none, none, some (Err.DBError 7)] : List (Option Err))) := by
  have h : (handleTransfer [none, none, some (Err.DBError 7)] "alice" intReq
      sampleState).2 = some (Err.DBError 7) := by decide
  exact ⟨h, (C5_rollback_reraise _ "alice" intReq sampleState _ h).1,
    (C5_rollback_reraise _ "alice" intReq sampleState _ h).2⟩

/-- C8: the source of an internal transfer is resolved as
`myAccount ?? sharedAccount`: the directly-owned lookup wins whenever it
returns an account, the Admin-or-Owner shared lookup is used otherwise, and
the resolved account is the one recorded as the created ledger row's
fromAccount snapshot. -/
theorem C8_source_resolution (s : DBState) (identifier : String) (req : Transfer) :
    (∀ a, getAuthorizedAccountById s req.fromAccountId identifier = some a →
      resolveFromAccount s req.fromAccountId identifier = some a) ∧
    (getAuthorizedAccountById s req.fromAccountId identifier = none →
      resolveFromAccount s req.fromAccountId identifier =
        getAuthorizedSharedAccountById s req.fromAccountId identifier
          [AccountRole.Admin, AccountRole.Owner]) ∧
    (∀ fromA toA, resolveFromAccount s req.fromAccountId identifier = some fromA →
      getAccount s req.toAccountId = some toA →
      ∃ row, (handleInternalTransfer [] identifier req s).1.ledger =
        s.ledger ++ [row] ∧ row.fromAccount = fromA ∧ row.toAccount = toA) := by
  refine ⟨?_, ?_, ?_⟩
  · intro a ha
    simp [resolveFromAccount, ha, Option.orElse]
  · intro ha
    simp [resolveFromAccount, ha, Option.orElse]
  · intro fromA toA hfrom hto
    simp only [handleInternalTransfer, hfrom, hto]
    refine ⟨⟨req.amount, req.message, fromA, toA, TransactionType.Transfer⟩, ?_, rfl, rfl⟩
    simp [stepFail, createRow, decrementBalance, incrementBalance]

/-- C8 witness: alice's directly-owned lookup of account 1 wins, and a
successful transfer records that account as the row's fromAccount. -/
theorem C8_source_resolution_witness :
    resolveFromAccount sampleState 1 "alice" = some accountA ∧
    ∃ row, (handleInternalTransfer [] "alice" intReq sampleState).1.ledger =
      sampleState.ledger ++ [row] ∧ row.fromAccount = accountA ∧
      row.toAccount = accountB :=
  ⟨(C8_source_resolution sampleState "alice" intReq).1 accountA (by decide),
    (C8_source_resolution sampleState "alice" intReq).2.2 accountA accountB
      (by decide) (by decide)⟩

/-! ## History fold characterizations -/

theorem foldl_expensesStep (txs : List HistoryTx) (a : Int) :
    txs.foldl expensesStep a =
      a - sumAmounts (txsOfType TransactionType.Outgoing txs) := by
  induction txs generalizing a with
  | nil => simp [sumAmounts, txsOfType]
  | cons t ts ih =>
    rw [List.foldl_cons, ih]
    by_cases h : t.type = TransactionType.Outgoing
    · simp only [expensesStep, h]
      simp [txsOfType, List.filter_cons, sumAmounts, h]
      ring
    · simp [expensesStep, txsOfType, List.filter_cons, h, sumAmounts]

theorem foldl_incomeStep (txs : List HistoryTx) (a : Int) :
    txs.foldl incomeStep a =
      a + sumAmounts (txsOfType TransactionType.Incoming txs) := by
  induction txs generalizing a with
  | nil => simp [sumAmounts, txsOfType]
  | cons t ts ih =>
    rw [List.foldl_cons, ih]
    by_cases h : t.type = TransactionType.Incoming
    · simp only [incomeStep, h]
      simp [txsOfType, List.filter_cons, sumAmounts, h]
      ring
    · simp [incomeStep, txsOfType, List.filter_cons, h, sumAmounts]

theorem lastWeekStep_same_day (fmt : Nat → String) (m : String → Option DayEntry)
    (t : HistoryTx) (d : String) (hd : fmt t.createdAt = d) :
    lastWeekStep fmt m t d =
      some ⟨(if t.type == TransactionType.Incoming then
               ((m d).getD ⟨0, 0⟩).income + t.amount
             else ((m d).getD ⟨0, 0⟩).income),
            (if t.type == TransactionType.Outgoing then
               ((m d).getD ⟨0, 0⟩).expenses - t.amount
             else ((m d).getD ⟨0, 0⟩).expenses)⟩ := by
  simp [lastWeekStep, hd]

theorem lastWeekStep_other_day (fmt : Nat → String) (m : String → Option DayEntry)
    (t : HistoryTx) (d : String) (hd : fmt t.createdAt ≠ d) :
    lastWeekStep fmt m t d = m d := by
  simp [lastWeekStep, Ne.symm hd]

theorem txsOnDay_nil_of_any_false (fmt : Nat → String) (d : String)
    (txs : List HistoryTx) (h : txs.any (fun t => fmt t.createdAt == d) = false) :
    txsOnDay fmt d txs = [] := by
  simp only [List.any_eq_false, beq_iff_eq] at h
  simp only [txsOnDay, List.filter_eq_nil_iff]
  intro t ht
  simp [h t ht]

theorem foldl_lastWeekStep (fmt : Nat → String) (txs : List HistoryTx)
    (m : String → Option DayEntry) (d : String) :
    txs.foldl (lastWeekStep fmt) m d =
      if txs.any (fun t => fmt t.createdAt == d) then
        some ⟨((m d).getD ⟨0, 0⟩).income +
                sumAmounts (txsOfType TransactionType.Incoming (txsOnDay fmt d txs)),
              ((m d).getD ⟨0, 0⟩).expenses -
                sumAmounts (txsOfType TransactionType.Outgoing (txsOnDay fmt d txs))⟩
      else m d := by
  induction txs generalizing m with
  | nil => simp
  | cons t ts ih =>
    rw [List.foldl_cons, ih]
    by_cases hd : fmt t.createdAt = d
    · have hday : txsOnDay fmt d (t :: ts) = t :: txsOnDay fmt d ts := by
        simp [txsOnDay, List.filter_cons, hd]
      have hany : (t :: ts).any (fun x => fmt x.createdAt == d) = true := by
        simp [hd]
      rw [lastWeekStep_same_day fmt m t d hd, hday, hany]
      by_cases hts : ts.any (fun x => fmt x.createdAt == d) = true
      · rw [if_pos hts, if_pos rfl]
        rcases htI : t.type with _ | _ | _ <;>
          simp [txsOfType, List.filter_cons, htI, sumAmounts] <;> ring
      · have hts' : ts.any (fun x => fmt x.createdAt == d) = false := by
          simpa using hts
        have hnil : txsOnDay fmt d ts = [] := txsOnDay_nil_of_any_false fmt d ts hts'
        rw [if_neg (by simp [hts']), if_pos rfl, hnil]
        rcases htI : t.type with _ | _ | _ <;>
          simp [txsOfType, List.filter_cons, htI, sumAmounts]
    · have hday : txsOnDay fmt d (t :: ts) = txsOnDay fmt d ts := by
        simp [txsOnDay, List.filter_cons, hd]
      have hany : (t :: ts).any (fun x => fmt x.createdAt == d) =
          ts.any (fun x => fmt x.createdAt == d) := by
        simp [hd]
      rw [lastWeekStep_other_day fmt m t d hd, hday, hany]

/-- C7: over any fixed list of window transactions, `handleGetHistory` returns
expenses equal to the negated sum of all `Outgoing` amounts, income equal to
the sum of all `Incoming` amounts, and a per-day map whose bucket for each
local date string holds exactly those sums restricted to the transactions of
that day (and no bucket for a day with no transaction). -/
theorem C7_history_totals (fmt : Nat → String) (txs : List HistoryTx) (d : String) :
    (handleGetHistory fmt txs).expenses =
      -(sumAmounts (txsOfType TransactionType.Outgoing txs)) ∧
    (handleGetHistory fmt txs).income =
      sumAmounts (txsOfType TransactionType.Incoming txs) ∧
    (handleGetHistory fmt txs).lastWeek d =
      (if txs.any (fun t => fmt t.createdAt == d) then
        some ⟨sumAmounts (txsOfType TransactionType.Incoming (txsOnDay fmt d txs)),
              -(sumAmounts (txsOfType TransactionType.Outgoing (txsOnDay fmt d txs)))⟩
      else none) := by
  refine ⟨?_, ?_, ?_⟩
  · rw [show (handleGetHistory fmt txs).expenses = txs.foldl expensesStep 0 from rfl,
      foldl_expensesStep]
    ring
  · rw [show (handleGetHistory fmt txs).income = txs.foldl incomeStep 0 from rfl,
      foldl_incomeStep]
    ring
  · rw [show (handleGetHistory fmt txs).lastWeek = txs.foldl (lastWeekStep fmt)
      (fun _ => none) from rfl, foldl_lastWeekStep]
    by_cases h : txs.any (fun t => fmt t.createdAt == d) = true <;> simp [h]

/-- C10: a `Transfer`-typed transaction contributes nothing to
`handleGetHistory`: appending it to any transaction list changes neither the
income and expenses totals nor the income/expenses values of any day's
bucket. -/
theorem C10_transfer_neutral (fmt : Nat → String) (txs : List HistoryTx)
    (t : HistoryTx) (d : String) (h : t.type = TransactionType.Transfer) :
    (handleGetHistory fmt (txs ++ [t])).income = (handleGetHistory fmt txs).income ∧
    (handleGetHistory fmt (txs ++ [t])).expenses = (handleGetHistory fmt txs).expenses ∧
    (((handleGetHistory fmt (txs ++ [t])).lastWeek d).getD ⟨0, 0⟩).income =
      (((handleGetHistory fmt txs).lastWeek d).getD ⟨0, 0⟩).income ∧
    (((handleGetHistory fmt (txs ++ [t])).lastWeek d).getD ⟨0, 0⟩).expenses =
      (((handleGetHistory fmt txs).lastWeek d).getD ⟨0, 0⟩).expenses := by
  refine ⟨?_, ?_, ?_, ?_⟩
  · rw [show (handleGetHistory fmt (txs ++ [t])).income =
        (txs ++ [t]).foldl incomeStep 0 from rfl,
      show (handleGetHistory fmt txs).income = txs.foldl incomeStep 0 from rfl,
      List.foldl_append]
    simp [incomeStep, h]
  · rw [show (handleGetHistory fmt (txs ++ [t])).expenses =
        (txs ++ [t]).foldl expensesStep 0 from rfl,
      show (handleGetHistory fmt txs).expenses = txs.foldl expensesStep 0 from rfl,
      List.foldl_append]
    simp [expensesStep, h]
  all_goals
    rw [show (handleGetHistory fmt (txs ++ [t])).lastWeek =
        (txs ++ [t]).foldl (lastWeekStep fmt) (fun _ => none) from rfl,
      show (handleGetHistory fmt txs).lastWeek =
        txs.foldl (lastWeekStep fmt) (fun _ => none) from rfl,
      List.foldl_append]
    by_cases hd : fmt t.createdAt = d
    · rw [List.foldl_cons, List.foldl_nil,
        lastWeekStep_same_day fmt _ t d hd]
      simp [h]
    · rw [List.foldl_cons, List.foldl_nil,
        lastWeekStep_other_day fmt _ t d hd]

/-- C10 witness: appending a Transfer of 100 to a one-Incoming-transaction
list leaves totals and the day bucket values unchanged. -/
theorem C10_transfer_neutral_witness :
    (⟨100, TransactionType.Transfer, 0⟩ : HistoryTx).type = TransactionType.Transfer ∧
    (handleGetHistory (fun _ => "d0")
        ([⟨30, TransactionType.Incoming, 0⟩] ++ [⟨100, TransactionType.Transfer, 0⟩])).income =
      (handleGetHistory (fun _ => "d0") [⟨30, TransactionType.Incoming, 0⟩]).income ∧
    (handleGetHistory (fun _ => "d0")
        ([⟨30, TransactionType.Incoming, 0⟩] ++ [⟨100, TransactionType.Transfer, 0⟩])).expenses =
      (handleGetHistory (fun _ => "d0") [⟨30, TransactionType.Incoming, 0⟩]).expenses ∧
    (((handleGetHistory (fun _ => "d0")
        ([⟨30, TransactionType.Incoming, 0⟩] ++ [⟨100, TransactionType.Transfer, 0⟩])).lastWeek
          "d0").getD ⟨0, 0⟩).income =
      (((handleGetHistory (fun _ => "d0")
        [⟨30, TransactionType.Incoming, 0⟩]).lastWeek "d0").getD ⟨0, 0⟩).income := by
  have hc := C10_transfer_neutral (fun _ => "d0") [⟨30, TransactionType.Incoming, 0⟩]
    ⟨100, TransactionType.Transfer, 0⟩ "d0" rfl
  exact ⟨rfl, hc.1, hc.2.1, hc.2.2.1⟩

end Pefcl
